import Mathlib

/-!
Verification development for the drand randomness-beacon repository.

The Go sources under `src/` are shallowly embedded as Lean definitions:

* `src/core/drand_public.go` — the public RPC surface (`PublicRand`,
  `PublicRandStream`, `Reshare`, `NewBeacon`).
* `src/net/client_grpc.go` — the gRPC network shim (per-method deadline
  handling and the `NewBeacon` re-dial wrapper).
* `src/net/control.go` — the control-plane listener and client addresses.
* `src/unnamed/part_000` — the CLI front-end (`keygenCmd`).

Components of the repository that the claims need but whose code is not part
of `src/` (the beacon `Handler`, the chain store, the round clock, the
callback registry and the resharing DKG — only their tests and callers are
present) are modelled from the specification; each such definition carries a
doc comment starting with `Modelled from the spec:`.

Machine integers (`uint64` rounds, ports, seconds) are modelled as `Nat`;
no drand quantity comes close to overflow in the modelled scenarios.
Byte strings (`[]byte` signatures, seeds) are modelled as `List Nat`.
-/

namespace DrandSpec

/-- Beacon record, mirroring `beacon.Beacon`
(`Round`, `PreviousRound`, `PreviousSig`, `Signature`); byte slices become
`List Nat`. -/
structure Beacon where
  round : Nat
  previousRound : Nat
  previousSig : List Nat
  signature : List Nat
deriving DecidableEq, Repr

/-- Modelled from the spec: the client-visible randomness is `H'(signature)`
for a hash `H'` (`beacon.Beacon.Randomness` is not under `src/`); the hash is
kept abstract as an injective tagged encoding of the signature. -/
def beaconRandomness (b : Beacon) : List Nat :=
  0 :: b.signature

/-- Modelled from the spec: the chain store (§4.A) is an ordered log of
beacons keyed by round; `BoltStore` is not under `src/`. The log is the list
of beacons in insertion (round) order. -/
def storeGet (st : List Beacon) (r : Nat) : Option Beacon :=
  st.find? (fun b => b.round == r)

/-- Modelled from the spec: `last()` of the chain store returns the most
recently stored beacon, or an error when the store is empty. -/
def storeLast (st : List Beacon) : Option Beacon :=
  st.getLast?

/-- Public RPC response, mirroring `drand.PublicRandResponse`. -/
structure PublicRandResponse where
  round : Nat
  previousRound : Nat
  previousSig : List Nat
  signature : List Nat
  randomness : List Nat
deriving DecidableEq, Repr

/-- Error kinds surfaced by the public RPCs (spec §7): `notReady` for the
pre-DKG "beacon generation not started yet" error, `notFound` for the
wrapped store-lookup error. -/
inductive PubError where
  | notReady
  | notFound
deriving DecidableEq, Repr

/-- Builds the `PublicRandResponse` for a beacon exactly as
`Drand.PublicRand` does (src/core/drand_public.go:99-105). -/
def respOfBeacon (b : Beacon) : PublicRandResponse :=
  { round := b.round
    previousRound := b.previousRound
    previousSig := b.previousSig
    signature := b.signature
    randomness := beaconRandomness b }

/-- Embeds `Drand.PublicRand` (src/core/drand_public.go:78-106).
`beaconSet` is `d.beacon != nil` (the beacon engine has been started); the
store is the chain-store log. A zero requested round reads `Store().Last()`,
any other round reads `Store().Get(round)`; a failed lookup is returned as
an error. -/
def publicRand (beaconSet : Bool) (store : List Beacon) (reqRound : Nat) :
    Except PubError PublicRandResponse :=
  if !beaconSet then
    .error .notReady
  else
    match (if reqRound == 0 then storeLast store else storeGet store reqRound) with
    | none => .error .notFound
    | some b => .ok (respOfBeacon b)

/-- Embeds `controlListenAddr` (src/net/control.go:136-138):
`fmt.Sprintf("%s:%s", "localhost", port)`. -/
def controlListenAddr (port : String) : String :=
  "localhost" ++ ":" ++ port

/-- Embeds the bind address used by `NewTCPGrpcControlListener`
(src/net/control.go:21-30): it listens on `controlListenAddr(port)`. -/
def controlListenerBindAddr (port : String) : String :=
  controlListenAddr port

/-- Embeds the dial address used by `NewControlClient`
(src/net/control.go:53-62): it dials `controlListenAddr(port)`. -/
def controlClientDialAddr (port : String) : String :=
  controlListenAddr port

/-- Address classifier: an address is loopback-bound when it starts with the
literal host `localhost` followed by the port separator. -/
def isLoopbackAddr (a : String) : Bool :=
  ("localhost:").toList.isPrefixOf a.toList

/-- Long-term key pair identity, mirroring `key.Pair` as far as the CLI
uses it: the public address and the TLS flag. -/
structure KeyPair where
  address : String
  tls : Bool
deriving DecidableEq, Repr

/-- Mirrors `key.NewKeyPair(addr)` (non-TLS identity). -/
def newKeyPair (addr : String) : KeyPair :=
  { address := addr, tls := false }

/-- Mirrors `key.NewTLSKeyPair(addr)` (TLS identity). -/
def newTLSKeyPair (addr : String) : KeyPair :=
  { address := addr, tls := true }

/-- Embeds `keygenCmd` (src/unnamed/part_000:464-510). The on-disk file
store (`key.FileStore`, not under `src/`) is modelled as the optional key
pair currently saved in the configuration folder: `LoadKeyPair` succeeds
exactly when a pair is present. The command generates a fresh pair (TLS or
not according to `tls-disable`); if `LoadKeyPair` succeeds it prints a
message and returns without saving, otherwise it saves the fresh pair.
Returns the stored pair after the command and whether `SaveKeyPair` ran. -/
def keygenCmd (stored : Option KeyPair) (addr : String) (tlsDisable : Bool) :
    Option KeyPair × Bool :=
  let priv := if tlsDisable then newKeyPair addr else newTLSKeyPair addr
  match stored with
  | some existing => (some existing, false)
  | none => (some priv, true)

/-- Opaque DKG transport payload, mirroring the `dkg.Packet` protobuf carried
inside a `ResharePacket`; its content is irrelevant to the claims. -/
structure DkgPacket where
  payload : Nat
deriving DecidableEq, Repr

/-- Mirrors `drand.ResharePacket`: the hash of the new group and an optional
DKG payload (`in.Dkg`, nil-able in Go). -/
structure ResharePacket where
  groupHash : String
  dkg : Option DkgPacket
deriving DecidableEq, Repr

/-- The slice of `Drand` state that `Drand.Reshare` reads and writes:
`nextGroupHash` (empty string when `InitReshare` was never called),
`nextFirstReceived`, `nextOldPresent`, and whether `d.dkg` is non-nil. -/
structure ReshareState where
  nextGroupHash : String
  nextFirstReceived : Bool
  nextOldPresent : Bool
  dkgSet : Bool
deriving DecidableEq, Repr

/-- Observable outcome of one `Drand.Reshare` call: whether an error was
returned, the state afterwards, the DKG payloads handed to `dkg.Process`,
and whether a `StartDKG` goroutine was launched. -/
structure ReshareOutcome where
  failed : Bool
  state : ReshareState
  processed : List DkgPacket
  launchedDKG : Bool
deriving DecidableEq, Repr

/-- Embeds `Drand.Reshare` (src/core/drand_public.go:32-63). The call runs
under `d.state`'s lock; the `go d.StartDKG(...)` goroutine itself takes that
lock, so it cannot change `d.dkg` before this call returns — within the call
it only marks `nextFirstReceived` and is recorded as `launchedDKG`.
Order of the source checks: empty `nextGroupHash` errors; a mismatched
`in.GroupHash` errors; then the first-packet bookkeeping runs; then a nil
`d.dkg` errors; finally a non-nil `in.Dkg` is passed to `dkg.Process`. -/
def reshare (st : ReshareState) (p : ResharePacket) : ReshareOutcome :=
  if st.nextGroupHash = "" then
    { failed := true, state := st, processed := [], launchedDKG := false }
  else if p.groupHash ≠ st.nextGroupHash then
    { failed := true, state := st, processed := [], launchedDKG := false }
  else
    let launch := !st.nextFirstReceived && st.nextOldPresent
    let st1 := if launch then { st with nextFirstReceived := true } else st
    if !st1.dkgSet then
      { failed := true, state := st1, processed := [], launchedDKG := launch }
    else
      { failed := false
        state := { st1 with nextFirstReceived := true }
        processed := p.dkg.toList
        launchedDKG := launch }

/-- Formalisation of claim C8's acceptance clause exactly as stated: every
`ResharePacket` that passes the hash checks and carries no `dkg_packet` is
accepted (no error) without invoking DKG processing. -/
def reshareAcceptsEmptyPacket : Prop :=
  ∀ (st : ReshareState) (p : ResharePacket),
    st.nextGroupHash ≠ "" → p.groupHash = st.nextGroupHash → p.dkg = none →
      (reshare st p).failed = false ∧ (reshare st p).processed = []

/-- Modelled from the spec: the callback registry (§4.B, `CallbackStore` is
not under `src/`) maps subscriber addresses to delivery functions and is
invoked after each successful `put`. For the streaming subscribers of
`Drand.PublicRandStream` (src/core/drand_public.go:108-129) the delivery
function sends the beacon on the stream and, when the send errors, removes
its own registration (`DelCallback(addr)`). Whether the send to address `a`
for beacon `b` errors is an environment oracle `sendFails a b`. One stored
beacon is fanned out by attempting a send to every registered address and
dropping those whose send failed. -/
def deliverBeacon (sendFails : String → Beacon → Bool) (regs : List String)
    (b : Beacon) : List String × List (String × Beacon) :=
  (regs.filter (fun a => !(sendFails a b)),
   (regs.filter (fun a => !(sendFails a b))).map (fun a => (a, b)))

/-- Modelled from the spec: successive stored beacons are fanned out in
store order through the evolving registry; returns the final registry and
every successful delivery `(address, beacon)` of the run. -/
def deliverRun (sendFails : String → Beacon → Bool) (regs : List String) :
    List Beacon → List String × List (String × Beacon)
  | [] => (regs, [])
  | b :: rest =>
    let regs1 := (deliverBeacon sendFails regs b).1
    let out := (deliverBeacon sendFails regs b).2
    let tail := deliverRun sendFails regs1 rest
    (tail.1, out ++ tail.2)

/-- Substring test on character lists: does `pat` occur contiguously inside
the list? Mirrors Go's `strings.Contains` at the character level. -/
def charsContain (pat : List Char) : List Char → Bool
  | [] => pat.isEmpty
  | c :: rest => pat.isPrefixOf (c :: rest) || charsContain pat rest

/-- Mirrors `strings.Contains(s, pat)` as used in
src/net/client_grpc.go:191. -/
def strContains (s pat : String) : Bool :=
  charsContain pat.toList s.toList

/-- The substring that `grpcClient.NewBeacon` looks for in an error before
re-dialing. -/
def connErrorPat : String :=
  "connection error"

/-- Default per-call timeout of the shim: `defaultTimeout = 1 * time.Minute`
(src/net/client_grpc.go:33), in seconds. -/
def defaultTimeout : Nat :=
  60

/-- The unary RPC methods exposed by `grpcClient`
(src/net/client_grpc.go): every method that performs a single
request/response exchange. -/
inductive UMethod where
  | publicRand
  | privateRand
  | group
  | distKey
  | setup
  | reshare
  | newBeacon
  | home
deriving DecidableEq, Repr

/-- Observable trace of one unary call through the shim: the absolute
deadline attached to the call's context (`none` when the method passes
`context.Background()` directly), the number of RPC attempts made, whether
the cached connection was dropped and re-dialed, and the final result. Each
attempt's outcome is drawn from an environment oracle indexed by attempt
number. -/
structure CallTrace where
  deadline : Option Nat
  attempts : Nat
  redialed : Bool
  result : Except String Unit
deriving Repr

/-- One plain unary exchange: obtain the cached (or fresh) connection, build
the context, issue the RPC once. Shared shape of every unary method of
`grpcClient` except `NewBeacon`. -/
def simpleUnary (deadline : Option Nat) (oracle : Nat → Except String Unit) :
    CallTrace :=
  { deadline := deadline, attempts := 1, redialed := false, result := oracle 0 }

/-- Embeds `grpcClient.NewBeacon` (src/net/client_grpc.go:181-198): the
inner `do()` dials/reuses the connection and issues the RPC under a
`getTimeoutContext` deadline; if the first attempt fails with an error whose
text contains "connection error", the cached connection is dropped
(`deleteConn`) and `do()` runs exactly once more; any other error is
returned as-is. -/
def newBeaconTrace (timeout now : Nat) (oracle : Nat → Except String Unit) :
    CallTrace :=
  let d := some (now + timeout)
  match oracle 0 with
  | .ok u => { deadline := d, attempts := 1, redialed := false, result := .ok u }
  | .error e =>
    if strContains e connErrorPat then
      { deadline := d, attempts := 2, redialed := true, result := oracle 1 }
    else
      { deadline := d, attempts := 1, redialed := false, result := .error e }

/-- Embeds the unary methods of `grpcClient` (src/net/client_grpc.go),
method by method. `timeout` is `g.timeout`, `now` the wall-clock instant of
the call, so `getTimeoutContext` yields the deadline `now + timeout`.
`PublicRand` (74-84), `PrivateRand` (123-133), `Group` (135-145), `Setup`
(157-167), `Reshare` (169-179) and `Home` (237-247) each call
`getTimeoutContext`; `DistKey` (146-155) passes `context.Background()`
directly, with no deadline; `NewBeacon` (181-198) adds the re-dial
wrapper. -/
def unaryTrace (timeout now : Nat) (m : UMethod)
    (oracle : Nat → Except String Unit) : CallTrace :=
  match m with
  | .publicRand => simpleUnary (some (now + timeout)) oracle
  | .privateRand => simpleUnary (some (now + timeout)) oracle
  | .group => simpleUnary (some (now + timeout)) oracle
  | .distKey => simpleUnary none oracle
  | .setup => simpleUnary (some (now + timeout)) oracle
  | .reshare => simpleUnary (some (now + timeout)) oracle
  | .newBeacon => newBeaconTrace timeout now oracle
  | .home => simpleUnary (some (now + timeout)) oracle

/-- Formalisation of claim C5 exactly as stated: every unary RPC issued
through the shim carries a deadline, defaulting to one minute from the time
of the call when no explicit timeout was configured. -/
def everyUnaryCarriesDeadline : Prop :=
  ∀ (now : Nat) (m : UMethod) (oracle : Nat → Except String Unit),
    (unaryTrace defaultTimeout now m oracle).deadline = some (now + 60)

/-- Formalisation of claim C6's universal clause exactly as stated: for
every unary call of the shim, a failure of the first attempt with an error
containing "connection error" drops the cached connection and retries the
call exactly once. -/
def everyUnaryRedials : Prop :=
  ∀ (timeout now : Nat) (m : UMethod) (oracle : Nat → Except String Unit)
    (e : String),
    oracle 0 = .error e → strContains e connErrorPat = true →
      (unaryTrace timeout now m oracle).redialed = true ∧
      (unaryTrace timeout now m oracle).attempts = 2 ∧
      (unaryTrace timeout now m oracle).result = oracle 1

/-- Partial signature record, mirroring the spec's
`(round, index, partial_sig)` triple (§3). -/
structure PartialSig where
  round : Nat
  index : Nat
  sig : List Nat
deriving DecidableEq, Repr

/-- Modelled from the spec: the threshold BLS primitive (out of scope for
the core, §1) is abstracted to its interface: partial verification against
the public polynomial commitment, recovery of the full signature from
partials, and verification of a recovered signature against the distributed
public key. -/
structure ThresholdScheme where
  verifyPartial : Nat → List Nat → List Nat → Bool
  recover : List (Nat × List Nat) → List Nat
  verifyRecovered : List Nat → List Nat → List Nat → Bool

/-- Modelled from the spec: the canonical round message
`H(previous_sig ‖ previous_round ‖ round)` (§3; `beacon.Message` is not
under `src/`); the domain-separated hash is abstracted to an injective
encoding of its three inputs. -/
def roundMessage (prevSig : List Nat) (prevRound round : Nat) : List Nat :=
  prevSig ++ [prevRound, round]

/-- Modelled from the spec: the aggregator state (§4.F) — the chain-store
log, the current head (`last()`), and the partial cache. The pre-genesis
head carries round 0 and the genesis seed as signature (§3). -/
structure HandlerState where
  store : List Beacon
  head : Beacon
  cache : List PartialSig
deriving Repr

/-- Modelled from the spec: the aggregator's initial state over an empty
store, with the genesis head `previous_sig = genesis_seed`,
`previous_round = 0`. -/
def initHandler (genesisSeed : List Nat) : HandlerState :=
  { store := []
    head := { round := 0, previousRound := 0, previousSig := [], signature := genesisSeed }
    cache := [] }

/-- Modelled from the spec: steps 4a-4c of the per-round procedure (§4.F).
When at least `thr` cached partials exist for round `r`, the full signature
is recovered from them, verified against the distributed public key over the
message built from the current head, and only on success is the beacon
committed to the store and the head advanced. -/
def tryAggregate (sch : ThresholdScheme) (dpk : List Nat) (thr : Nat)
    (st : HandlerState) (r : Nat) : HandlerState :=
  let ps := st.cache.filter (fun p => p.round == r)
  if thr ≤ ps.length then
    let sig := sch.recover (ps.map (fun p => (p.index, p.sig)))
    let msg := roundMessage st.head.signature st.head.round r
    if sch.verifyRecovered dpk msg sig then
      let b : Beacon :=
        { round := r
          previousRound := st.head.round
          previousSig := st.head.signature
          signature := sig }
      { st with store := st.store ++ [b], head := b }
    else st
  else st

/-- Inputs driving the aggregator: an inbound partial signature from a peer,
or a beacon received through the sync protocol (§4.G). -/
inductive HInput where
  | recv (p : PartialSig)
  | syncIn (b : Beacon)
deriving Repr

/-- Modelled from the spec: one aggregator transition. An inbound partial is
validated (BLS partial verification at its index over the expected message,
step 4 of §4.F) before entering the cache, after which aggregation for its
round is attempted; a synced beacon (§4.G) is verified against the
distributed public key over the message built from its own fields and
chain-checked against the head before being stored. -/
def handlerStep (sch : ThresholdScheme) (dpk : List Nat) (thr : Nat)
    (st : HandlerState) : HInput → HandlerState
  | .recv p =>
    if sch.verifyPartial p.index
        (roundMessage st.head.signature st.head.round p.round) p.sig then
      tryAggregate sch dpk thr { st with cache := p :: st.cache } p.round
    else st
  | .syncIn b =>
    if sch.verifyRecovered dpk
        (roundMessage b.previousSig b.previousRound b.round) b.signature
        && (b.previousRound == st.head.round)
        && decide (b.previousSig = st.head.signature) then
      { st with store := st.store ++ [b], head := b }
    else st

/-- Modelled from the spec: an aggregator run over a sequence of inputs from
the initial state. -/
def handlerRun (sch : ThresholdScheme) (dpk : List Nat) (thr : Nat)
    (genesisSeed : List Nat) (inputs : List HInput) : HandlerState :=
  inputs.foldl (handlerStep sch dpk thr) (initHandler genesisSeed)

/-- Modelled from the spec: `next_round()` of the round clock (§4.D;
`beacon.NextRound` is not under `src/`, only its caller in
src/demo/orchestrator.go:193). Before genesis, the next round is round 1
starting at `genesis`; afterwards it is the round following the current one,
starting one period after the current round's start. -/
def nextRound (t genesis period : Nat) : Nat × Nat :=
  if t < genesis then (1, genesis)
  else ((t - genesis) / period + 2, genesis + ((t - genesis) / period + 1) * period)

/-- Modelled from the spec: `current_round()` (§3: `round(t)` is 0 before
genesis and `⌊(t − genesis)/period⌋ + 1` afterwards), derived as the round
preceding `next_round()` exactly as src/demo/orchestrator.go:228-229
computes it. -/
def currentRound (t genesis period : Nat) : Nat :=
  (nextRound t genesis period).1 - 1

/-- Phase of a started handler (§4.F states): `Waiting(genesis_time)` until
the clock reaches genesis, then `Running`. -/
inductive HandlerPhase where
  | waiting
  | running
deriving DecidableEq, Repr

/-- Modelled from the spec: a started handler stays in the not-started
(waiting) phase until the clock reaches `genesis_time` (§4.F, §8 boundary
behaviors). -/
def phaseAt (t genesis : Nat) : HandlerPhase :=
  if t < genesis then .waiting else .running

/-- Modelled from the spec: the partial signatures the aggregator produces
at time `t` — the signer signs the current round's message on each tick, and
no tick fires while the handler is waiting (round 0, pre-genesis). `sign`
abstracts the signer (§4.E). -/
def partialsProducedAt (t genesis period : Nat) (sign : Nat → List Nat) :
    List (List Nat) :=
  match phaseAt t genesis with
  | .waiting => []
  | .running => [sign (currentRound t genesis period)]

/-- Modelled from the spec: the secret that determines the distributed
public key. The distributed public key is "the polynomial commitment whose
constant term is the group public key" (glossary); the base-point commitment
is injective in the secret, so the key is identified with the constant term
`f(0)` of the secret-sharing polynomial. The DKG/resharing state machine
(§4.H) is not under `src/`; src/demo/orchestrator.go:358-365 only checks the
resulting keys for equality. -/
noncomputable def distKeySecret {F : Type} [Field F] (f : Polynomial F) : F :=
  Polynomial.eval 0 f

/-- Modelled from the spec: the resharing DKG (§4.H). Each qualified old
shareholder `i` (nodes of the qualified set `s`, at evaluation points
`v i`) deals a fresh sub-polynomial `deal i` whose own secret
`(deal i)(0)` is its old share `f(v i)`; at `Finalize` the new
secret-sharing polynomial is the Lagrange-weighted sum of the deals, the
weights being the Lagrange coefficients for evaluation at 0 over the nodes
of `s`. -/
noncomputable def resharedPoly {F : Type} [Field F] {ι : Type} [DecidableEq ι]
    (s : Finset ι) (v : ι → F) (deal : ι → Polynomial F) : Polynomial F :=
  ∑ i ∈ s, Polynomial.C (Polynomial.eval 0 (Lagrange.basis s v i)) * deal i

theorem isPrefixOf_append_self (l t : List Char) : l.isPrefixOf (l ++ t) = true := by
  induction l with
  | nil => simp
  | cons c cs ih => simp [List.cons_append, List.isPrefixOf_cons₂, ih]

/-- C9: for every configured control port, the control-plane listener binds
to the loopback address `localhost:port`, the control client dials exactly
the same address, and the bound address is always loopback (its host part is
the literal `localhost`), so the control endpoint is never bound to a
non-loopback interface. -/
theorem control_loopback_only (port : String) :
    controlListenerBindAddr port = ("localhost:" ++ port) ∧
    controlClientDialAddr port = controlListenerBindAddr port ∧
    isLoopbackAddr (controlListenerBindAddr port) = true := by
  have h1 : controlListenerBindAddr port = ("localhost:" ++ port) := by
    show ("localhost" ++ ":" ++ port) = ("localhost:" ++ port)
    rfl
  refine ⟨h1, rfl, ?_⟩
  rw [h1]
  show ("localhost:").toList.isPrefixOf (("localhost:" ++ port)).toList = true
  rw [show (("localhost:" ++ port)).toList = ("localhost:").toList ++ port.toList from rfl]
  exact isPrefixOf_append_self _ _

/-- C10: the generate-keypair command never overwrites an existing long-term
key pair: when a pair is already stored in the configuration folder, the
command returns without saving and the stored pair is unchanged. -/
theorem keygen_no_overwrite (stored : Option KeyPair) (addr : String)
    (tlsDisable : Bool) (kp : KeyPair) (h : stored = some kp) :
    keygenCmd stored addr tlsDisable = (some kp, false) := by
  subst h
  rfl

theorem keygen_no_overwrite_witness :
    keygenCmd (some { address := "a:1", tls := true }) "b:2" false
      = (some { address := "a:1", tls := true }, false) :=
  keygen_no_overwrite _ "b:2" false { address := "a:1", tls := true } rfl

/-- C2: `PublicRand` returns the not-ready error when the beacon engine has
not been started; otherwise a zero-round request is answered with the last
stored beacon, a nonzero-round request with the beacon stored at exactly
that round, and the not-found error when the lookup yields no beacon. -/
theorem publicRand_spec (beaconSet : Bool) (store : List Beacon) (reqRound : Nat) :
    (beaconSet = false → publicRand beaconSet store reqRound = .error .notReady) ∧
    (beaconSet = true → reqRound = 0 →
      ((∀ b, storeLast store = some b →
          publicRand beaconSet store reqRound = .ok (respOfBeacon b)) ∧
       (storeLast store = none →
          publicRand beaconSet store reqRound = .error .notFound))) ∧
    (beaconSet = true → reqRound ≠ 0 →
      ((∀ b, storeGet store reqRound = some b →
          publicRand beaconSet store reqRound = .ok (respOfBeacon b)) ∧
       (storeGet store reqRound = none →
          publicRand beaconSet store reqRound = .error .notFound))) := by
  refine ⟨fun h => by subst h; rfl, fun hb hr => ?_, fun hb hr => ?_⟩
  · subst hb; subst hr
    exact ⟨fun b h => by simp [publicRand, h], fun h => by simp [publicRand, h]⟩
  · subst hb
    have hbe : (reqRound == 0) = false := by simpa using hr
    exact ⟨fun b h => by simp [publicRand, hbe, h], fun h => by simp [publicRand, hbe, h]⟩

theorem publicRand_spec_witness :
    publicRand false [] 0 = .error .notReady ∧
    publicRand true [⟨1, 0, [7], [9]⟩] 0 = .ok (respOfBeacon ⟨1, 0, [7], [9]⟩) ∧
    publicRand true [⟨1, 0, [7], [9]⟩] 2 = .error .notFound :=
  ⟨(publicRand_spec false [] 0).1 rfl,
   ((publicRand_spec true [⟨1, 0, [7], [9]⟩] 0).2.1 rfl rfl).1 _ (by decide),
   ((publicRand_spec true [⟨1, 0, [7], [9]⟩] 2).2.2 rfl (by decide)).2 (by decide)⟩

/-- C8 counterexample: the acceptance clause of the claim is false as
stated. In the state where `InitReshare` has been called
(`nextGroupHash = "h"`) but no DKG is set up yet (`d.dkg` nil), a packet
with the matching group hash and an absent `dkg_packet` is rejected with
the "no dkg setup yet" error instead of being accepted. -/
theorem reshare_empty_packet_cex : ¬ reshareAcceptsEmptyPacket := fun h =>
  absurd (h ⟨"h", false, false, false⟩ ⟨"h", none⟩ (by decide) rfl rfl).1 (by decide)

/-- C8 (amended): a `ResharePacket` is rejected (error, nothing processed)
when `InitReshare` has not been called, when its `group_hash` differs from
the expected next-group hash, or when no DKG is set up yet; once the hash
checks pass and a DKG is set up, a packet whose optional `dkg_packet` is
absent is accepted without invoking DKG processing. -/
theorem reshare_packet_spec (st : ReshareState) (p : ResharePacket) :
    (st.nextGroupHash = "" →
      (reshare st p).failed = true ∧ (reshare st p).processed = []) ∧
    (p.groupHash ≠ st.nextGroupHash →
      (reshare st p).failed = true ∧ (reshare st p).processed = []) ∧
    (st.nextGroupHash ≠ "" → p.groupHash = st.nextGroupHash → st.dkgSet = false →
      (reshare st p).failed = true ∧ (reshare st p).processed = []) ∧
    (st.nextGroupHash ≠ "" → p.groupHash = st.nextGroupHash → st.dkgSet = true →
      p.dkg = none →
      (reshare st p).failed = false ∧ (reshare st p).processed = []) := by
  refine ⟨fun h => by simp [reshare, h], fun h => ?_, fun h0 hg hd => ?_, fun h0 hg hd hn => ?_⟩
  · by_cases h0 : st.nextGroupHash = ""
    · simp [reshare, h0]
    · simp [reshare, h0, h]
  · cases hl : (!st.nextFirstReceived && st.nextOldPresent) <;>
      simp [reshare, h0, hg, hd, hl]
  · cases hl : (!st.nextFirstReceived && st.nextOldPresent) <;>
      simp [reshare, h0, hg, hd, hl, hn]

theorem reshare_packet_spec_witness :
    (reshare ⟨"h", false, true, true⟩ ⟨"h", none⟩).failed = false ∧
    (reshare ⟨"h", false, true, true⟩ ⟨"h", none⟩).processed = [] :=
  (reshare_packet_spec ⟨"h", false, true, true⟩ ⟨"h", none⟩).2.2.2 (by decide) rfl rfl rfl

/-- C5 counterexample: the claim is false as stated — `DistKey` is a unary
RPC of the shim issued with `context.Background()` and carries no deadline
at all. -/
theorem distKey_no_deadline_cex : ¬ everyUnaryCarriesDeadline := fun h =>
  absurd (h 0 .distKey (fun _ => .ok ())) (by simp [unaryTrace, simpleUnary])

/-- C5 (amended): every unary RPC of the shim except `DistKey` carries a
deadline, which defaults to 1 minute (60 seconds) from the time of the call
when no explicit timeout was configured. -/
theorem unary_deadline_default (now : Nat) (m : UMethod)
    (oracle : Nat → Except String Unit) (h : m ≠ .distKey) :
    (unaryTrace defaultTimeout now m oracle).deadline = some (now + 60) := by
  cases m with
  | distKey => exact absurd rfl h
  | newBeacon =>
    show (newBeaconTrace defaultTimeout now oracle).deadline = some (now + 60)
    cases h0 : oracle 0 with
    | ok u => simp [newBeaconTrace, h0, defaultTimeout]
    | error e =>
      simp only [newBeaconTrace, h0]
      split <;> simp [defaultTimeout]
  | publicRand => rfl
  | privateRand => rfl
  | group => rfl
  | setup => rfl
  | reshare => rfl
  | home => rfl

theorem unary_deadline_default_witness :
    (unaryTrace defaultTimeout 5 .home (fun _ => .ok ())).deadline = some (5 + 60) :=
  unary_deadline_default 5 .home (fun _ => .ok ()) (by decide)

/-- C6 counterexample: the claim is false as stated — the re-dial behaviour
does not apply to every unary call of the shim. A `Setup` call whose first
attempt fails with an error containing "connection error" returns the error
without dropping the connection or retrying. -/
theorem only_newBeacon_redials_cex : ¬ everyUnaryRedials := by
  intro h
  have hc := (h 60 0 .setup
      (fun n => if n == 0 then .error ("connection error: refused") else .ok ())
      ("connection error: refused") rfl (by decide)).1
  simp [unaryTrace, simpleUnary] at hc

/-- C6 (amended): the re-dial behaviour applies to `NewBeacon` only. For
`NewBeacon`, a first attempt failing with an error whose description
contains "connection error" drops the cached connection, re-dials and
retries the call exactly once; an error not containing that substring is
returned without re-dialing. Every other unary call of the shim makes
exactly one attempt, never re-dials, and returns the first attempt's
result. -/
theorem newBeacon_redial_spec (timeout now : Nat) (m : UMethod)
    (oracle : Nat → Except String Unit) (e : String) :
    (oracle 0 = .error e → strContains e connErrorPat = true →
      (unaryTrace timeout now .newBeacon oracle).redialed = true ∧
      (unaryTrace timeout now .newBeacon oracle).attempts = 2 ∧
      (unaryTrace timeout now .newBeacon oracle).result = oracle 1) ∧
    (oracle 0 = .error e → strContains e connErrorPat = false →
      (unaryTrace timeout now .newBeacon oracle).redialed = false ∧
      (unaryTrace timeout now .newBeacon oracle).attempts = 1 ∧
      (unaryTrace timeout now .newBeacon oracle).result = .error e) ∧
    (m ≠ .newBeacon →
      (unaryTrace timeout now m oracle).redialed = false ∧
      (unaryTrace timeout now m oracle).attempts = 1 ∧
      (unaryTrace timeout now m oracle).result = oracle 0) := by
  refine ⟨fun h0 hc => ?_, fun h0 hc => ?_, fun hm => ?_⟩
  · simp [unaryTrace, newBeaconTrace, h0, hc]
  · simp [unaryTrace, newBeaconTrace, h0, hc]
  · cases m with
    | newBeacon => exact absurd rfl hm
    | publicRand => exact ⟨rfl, rfl, rfl⟩
    | privateRand => exact ⟨rfl, rfl, rfl⟩
    | group => exact ⟨rfl, rfl, rfl⟩
    | distKey => exact ⟨rfl, rfl, rfl⟩
    | setup => exact ⟨rfl, rfl, rfl⟩
    | reshare => exact ⟨rfl, rfl, rfl⟩
    | home => exact ⟨rfl, rfl, rfl⟩

theorem newBeacon_redial_spec_witness :
    (unaryTrace 60 0 .newBeacon
      (fun n => if n == 0 then .error ("connection error: x") else .ok ())).redialed = true ∧
    (unaryTrace 60 0 .home
      (fun n => if n == 0 then .error ("connection error: x") else .ok ())).redialed = false :=
  ⟨((newBeacon_redial_spec 60 0 .home
      (fun n => if n == 0 then .error ("connection error: x") else .ok ())
      ("connection error: x")).1 rfl (by decide)).1,
   ((newBeacon_redial_spec 60 0 .home
      (fun n => if n == 0 then .error ("connection error: x") else .ok ())
      ("connection error: x")).2.2 (by decide)).1⟩

theorem deliverRun_not_registered (f : String → Beacon → Bool) (a : String) :
    ∀ (bs : List Beacon) (regs : List String), a ∉ regs →
      a ∉ (deliverRun f regs bs).1 ∧ ∀ x ∈ (deliverRun f regs bs).2, x.1 ≠ a := by
  intro bs
  induction bs with
  | nil => exact fun regs h => ⟨h, by simp [deliverRun]⟩
  | cons b rest ih =>
    intro regs h
    have h1 : a ∉ (deliverBeacon f regs b).1 := fun hmem =>
      h (List.mem_of_mem_filter hmem)
    obtain ⟨hr, hd⟩ := ih (deliverBeacon f regs b).1 h1
    refine ⟨hr, ?_⟩
    intro x hx
    rcases List.mem_append.mp hx with hx | hx
    · rcases List.mem_map.mp hx with ⟨a1, ha1, rfl⟩
      intro hEq
      have ha : a1 = a := hEq
      exact h (ha ▸ List.mem_of_mem_filter ha1)
    · exact hd x hx

/-- C7: a failed delivery to a streaming subscriber removes that
subscriber's callback from the registry: after a beacon whose send to
address `a` errors, `a` is no longer registered, and no later stored beacon
of the run is delivered to `a`. -/
theorem failed_delivery_removes_subscriber (f : String → Beacon → Bool)
    (regs : List String) (a : String) (b : Beacon) (rest : List Beacon)
    (hfail : f a b = true) :
    a ∉ (deliverBeacon f regs b).1 ∧
    a ∉ (deliverRun f regs (b :: rest)).1 ∧
    ∀ x ∈ (deliverRun f (deliverBeacon f regs b).1 rest).2, x.1 ≠ a := by
  have h1 : a ∉ (deliverBeacon f regs b).1 := by
    simp [deliverBeacon, hfail]
  obtain ⟨hr, hd⟩ := deliverRun_not_registered f a rest (deliverBeacon f regs b).1 h1
  exact ⟨h1, hr, hd⟩

theorem failed_delivery_removes_subscriber_witness :
    "s" ∉ (deliverRun (fun a b => a == "s" && b.round == 1) ["s", "t"]
      [⟨1, 0, [], [1]⟩, ⟨2, 1, [1], [2]⟩]).1 :=
  (failed_delivery_removes_subscriber (fun a b => a == "s" && b.round == 1)
    ["s", "t"] "s" ⟨1, 0, [], [1]⟩ [⟨2, 1, [1], [2]⟩] (by decide)).2.1

/-- C4: strictly before genesis time, `current_round()` returns 0, a started
handler is still in the waiting (not-started) phase, and the aggregator
produces no partial signature. -/
theorem pre_genesis_idle (t genesis period : Nat) (sign : Nat → List Nat)
    (h : t < genesis) :
    currentRound t genesis period = 0 ∧
    phaseAt t genesis = .waiting ∧
    partialsProducedAt t genesis period sign = [] := by
  refine ⟨?_, ?_, ?_⟩ <;>
    simp [currentRound, nextRound, phaseAt, partialsProducedAt, h]

theorem pre_genesis_idle_witness :
    currentRound 3 10 2 = 0 ∧ phaseAt 3 10 = .waiting ∧
    partialsProducedAt 3 10 2 (fun r => [r]) = [] :=
  pre_genesis_idle 3 10 2 (fun r => [r]) (by decide)

/-- Chain-store invariant of the aggregator: every stored beacon's signature
passes BLS verification under the distributed public key over the canonical
message built from the beacon's own fields. -/
def StoreVerified (sch : ThresholdScheme) (dpk : List Nat)
    (st : HandlerState) : Prop :=
  ∀ b ∈ st.store,
    sch.verifyRecovered dpk
      (roundMessage b.previousSig b.previousRound b.round) b.signature = true

theorem tryAggregate_preserves (sch : ThresholdScheme) (dpk : List Nat)
    (thr : Nat) (st : HandlerState) (r : Nat) (h : StoreVerified sch dpk st) :
    StoreVerified sch dpk (tryAggregate sch dpk thr st r) := by
  simp only [tryAggregate]
  split
  · split
    · rename_i hver
      intro b hb
      rcases List.mem_append.mp hb with hb | hb
      · exact h b hb
      · rcases List.mem_singleton.mp hb with rfl
        simpa using hver
    · exact h
  · exact h

theorem handlerStep_preserves (sch : ThresholdScheme) (dpk : List Nat)
    (thr : Nat) (st : HandlerState) (inp : HInput)
    (h : StoreVerified sch dpk st) :
    StoreVerified sch dpk (handlerStep sch dpk thr st inp) := by
  cases inp with
  | recv p =>
    simp only [handlerStep]
    split
    · exact tryAggregate_preserves sch dpk thr _ p.round h
    · exact h
  | syncIn b =>
    simp only [handlerStep]
    split
    · rename_i hcond
      intro b1 hb1
      rcases List.mem_append.mp hb1 with hb1 | hb1
      · exact h b1 hb1
      · rcases List.mem_singleton.mp hb1 with rfl
        exact (Bool.and_eq_true_iff.mp
          (Bool.and_eq_true_iff.mp hcond).1).1
    · exact h

theorem handlerFold_preserves (sch : ThresholdScheme) (dpk : List Nat)
    (thr : Nat) :
    ∀ (inputs : List HInput) (st : HandlerState), StoreVerified sch dpk st →
      StoreVerified sch dpk (inputs.foldl (handlerStep sch dpk thr) st)
  | [], _, h => h
  | i :: rest, st, h =>
    handlerFold_preserves sch dpk thr rest (handlerStep sch dpk thr st i)
      (handlerStep_preserves sch dpk thr st i h)

/-- C1: every beacon stored by the aggregator over any run, with round
greater than 1, carries a signature that passes BLS verification under the
distributed public key over the message
`H(previous_sig ‖ previous_round ‖ round)` built from the beacon's own
fields (the property in fact holds for every stored beacon). -/
theorem beacon_chain_verifies (sch : ThresholdScheme) (dpk : List Nat)
    (thr : Nat) (seed : List Nat) (inputs : List HInput) (b : Beacon)
    (hb : b ∈ (handlerRun sch dpk thr seed inputs).store) (hr : 1 < b.round) :
    sch.verifyRecovered dpk
      (roundMessage b.previousSig b.previousRound b.round) b.signature = true :=
  handlerFold_preserves sch dpk thr inputs (initHandler seed)
    (fun b1 hb1 => by simp [initHandler] at hb1) b hb

theorem beacon_chain_verifies_witness :
    (⟨fun _ _ _ => true, fun _ => [5], fun _ _ _ => true⟩ :
        ThresholdScheme).verifyRecovered [0] (roundMessage [5] 1 2) [5] = true :=
  beacon_chain_verifies
    ⟨fun _ _ _ => true, fun _ => [5], fun _ _ _ => true⟩ [0] 1 [9]
    [.recv ⟨1, 0, [3]⟩, .recv ⟨2, 0, [4]⟩] ⟨2, 1, [5], [5]⟩
    (by decide) (by decide)

/-- C3: a successful resharing leaves the distributed public key unchanged.
For any qualified set `s` of old shareholders at nodes `v` whose deals are
consistent with the old secret-sharing polynomial `f` (each deal's secret is
the dealer's old share `f(v i)`) and whose size meets the old threshold
(`deg f < |s|`), the new distributed polynomial produced at `Finalize` has
the same key-determining secret as the old one:
`(reshared)(0) = f(0)`, hence `old.distkey == new.distkey`. -/
theorem reshare_preserves_distkey {F : Type} [Field F] {ι : Type}
    [DecidableEq ι] (s : Finset ι) (v : ι → F) (f : Polynomial F)
    (deal : ι → Polynomial F) (hv : Set.InjOn v ↑s)
    (hdeg : f.degree < (s.card : WithBot ℕ))
    (hdeal : ∀ i ∈ s, Polynomial.eval 0 (deal i) = Polynomial.eval (v i) f) :
    distKeySecret (resharedPoly s v deal) = distKeySecret f := by
  unfold distKeySecret resharedPoly
  rw [Polynomial.eval_finset_sum]
  have h1 : ∀ i ∈ s,
      Polynomial.eval 0
          (Polynomial.C (Polynomial.eval 0 (Lagrange.basis s v i)) * deal i)
        = Polynomial.eval (v i) f * Polynomial.eval 0 (Lagrange.basis s v i) := by
    intro i hi
    rw [Polynomial.eval_mul, Polynomial.eval_C, hdeal i hi, mul_comm]
  rw [Finset.sum_congr rfl h1]
  conv_rhs => rw [Lagrange.eq_interpolate hv hdeg]
  rw [Lagrange.interpolate_apply, Polynomial.eval_finset_sum]
  exact Finset.sum_congr rfl fun i hi => by
    rw [Polynomial.eval_mul, Polynomial.eval_C]

theorem reshare_preserves_distkey_witness :
    distKeySecret (resharedPoly ({1, 2} : Finset ℕ) (fun n => (n : ℚ))
        (fun i => Polynomial.C (Polynomial.eval ((i : ℚ))
          (Polynomial.C 2 * Polynomial.X + Polynomial.C 3))))
      = distKeySecret (Polynomial.C 2 * Polynomial.X + Polynomial.C 3 :
          Polynomial ℚ) :=
  reshare_preserves_distkey ({1, 2} : Finset ℕ) (fun n => (n : ℚ))
    (Polynomial.C 2 * Polynomial.X + Polynomial.C 3)
    (fun i => Polynomial.C (Polynomial.eval ((i : ℚ))
      (Polynomial.C 2 * Polynomial.X + Polynomial.C 3)))
    (fun a _ b _ h => Nat.cast_injective h)
    (by rw [Polynomial.degree_linear (by norm_num : (2 : ℚ) ≠ 0)]; decide)
    (fun i _ => Polynomial.eval_C)

end DrandSpec
